import Mathlib

/-! Shallow embedding of the crypto alert bot (src/alert_bot.py).

Prices, percentages and balances are modelled as rationals; the Python
dictionaries become total functions with the same get-with-default
semantics; optional config fields become `Option ℚ`; each rule of
`check_prices_and_trigger_alerts` becomes a function producing a list of
alert fragments, and the per-asset swing-zone memory becomes explicit
state threaded through the evaluation. -/

/-- The per-asset hysteresis zone stored in `swing_memory`
(`last_zone` ∈ {top, bottom, middle}, default middle). -/
inductive Zone
  | top
  | bottom
  | middle
deriving DecidableEq

/-- One alert fragment appended to `msg_parts`; each constructor keeps
the numeric content interpolated into the corresponding message. -/
inductive Frag
  | surge (change3h : ℚ)
  | drop (magnitude : ℚ)
  | profitTarget (pct gbp : ℚ)
  | nearTop (price : ℚ)
  | nearBottom (price : ℚ)
  | buy (qty : ℚ)
  | sell (value profitPct : ℚ)
deriving DecidableEq

/-- Per-token configuration fields read from `TRACKED_TOKENS_CONFIG`
(`entry_price`, `buy_price`, `sell_price`, `min_usdt_balance`,
`min_token_holding`; the last two default to 0 when absent). -/
structure AssetCfg where
  entry_price : Option ℚ
  buy_price : Option ℚ
  sell_price : Option ℚ
  min_usdt_balance : ℚ
  min_token_holding : ℚ
deriving DecidableEq

/-- The GBP quote block of a CMC response: `price`,
`percent_change_3h`, `percent_change_24h`, each possibly missing. -/
structure RawQuote where
  price : Option ℚ
  percent_change_3h : Option ℚ
  percent_change_24h : Option ℚ
deriving DecidableEq

/-- `TRADING_DAYS` element mapping (alert_bot.py lines 54-62): weekday
name to ordinal; every unrecognized string falls through to 6. -/
def tradingDayOrdinal (d : String) : Nat :=
  if d = "Monday" then 0
  else if d = "Tuesday" then 1
  else if d = "Wednesday" then 2
  else if d = "Thursday" then 3
  else if d = "Friday" then 4
  else if d = "Saturday" then 5
  else 6

/-- The `TRADING_DAYS` list built from `trading_hours.days`. -/
def tradingDaysOf (days : List String) : List Nat :=
  days.map tradingDayOrdinal

/-- The six weekday names the config translation recognizes. -/
def recognizedDayNames : List String :=
  ["Monday", "Tuesday", "Wednesday", "Thursday", "Friday", "Saturday"]

/-- The trading-window gate at the top of
`check_prices_and_trigger_alerts` (lines 241-248): the tick proceeds iff
the weekday is in `TRADING_DAYS` and `START_HOUR ≤ hour < END_HOUR`. -/
def tradingWindowAllows (days : List Nat) (startHour endHour w h : Nat) : Bool :=
  decide (w ∈ days) && (decide (startHour ≤ h) && decide (h < endHour))

/-- The approximate price 24 hours ago (lines 269-276):
`price / (1 + change24h/100)` unless the divisor is within `1e-9` of
zero, in which case fall back to the current price. -/
def price24hAgo (price change24h : ℚ) : ℚ :=
  let divisor := 1 + change24h / 100
  if 1 / 1000000000 < |divisor| then price / divisor else price

/-- The inner zone transition of `should_send_swing_alert`
(lines 221-232), with the two thresholds as inputs: top branch, elif
bottom branch, else middle; the fragment fires only on entry into a
zone different from the previous one, and the memory write is skipped
when already in the same zone. -/
def zoneStep (price topThr botThr : ℚ) (prev : Zone) : List Frag × Zone :=
  if topThr ≤ price then
    if prev ≠ Zone.top then ([Frag.nearTop price], Zone.top) else ([], prev)
  else if price ≤ botThr then
    if prev ≠ Zone.bottom then ([Frag.nearBottom price], Zone.bottom) else ([], prev)
  else ([], Zone.middle)

/-- `should_send_swing_alert` (lines 199-234): reconstruct the 24h
high/low from the current price and the approximated price 24h ago,
return early on a negligible range (≤ 0.001) leaving the zone memory
untouched, otherwise apply the hysteresis step with thresholds at 90%
and 10% of the range. -/
def should_send_swing_alert (price p24 : ℚ) (prev : Zone) : List Frag × Zone :=
  let hi := max price p24
  let lo := min price p24
  let range := hi - lo
  if range ≤ 1 / 1000 then ([], prev)
  else zoneStep price (lo + 9 / 10 * range) (lo + 1 / 10 * range) prev

/-- Iterate `zoneStep` over a price sequence with fixed thresholds,
returning the fragments fired at each tick. -/
def zoneRun (topThr botThr : ℚ) : Zone → List ℚ → List (List Frag)
  | _, [] => []
  | z, p :: rest =>
    let r := zoneStep p topThr botThr z
    r.1 :: zoneRun topThr botThr r.2 rest

/-- The surge / drop pair (lines 286-290): an `if` / `elif` on
`change_3h` against `PRICE_SURGE_PERCENT` and `-PRICE_DROP_PERCENT`. -/
def surgeDropFrags (change3h surgeP dropP : ℚ) : List Frag :=
  if surgeP ≤ change3h then [Frag.surge change3h]
  else if change3h ≤ -dropP then [Frag.drop |change3h|]
  else []

/-- The target-profit rule (lines 292-298): requires `entry_price`
present and positive; fires when the profit percentage reaches
`TARGET_PROFIT_PERCENT * 100`; reports the percentage and the realized
GBP profit `(price − entry) × holding`. -/
def profitTargetFrags (entryPrice : Option ℚ) (targetFrac price holding : ℚ) :
    List Frag :=
  match entryPrice with
  | none => []
  | some e =>
    if 0 < e then
      if targetFrac * 100 ≤ (price - e) / e * 100 then
        [Frag.profitTarget ((price - e) / e * 100) ((price - e) * holding)]
      else []
    else []

/-- Round-half-to-even on rationals, the rounding Python's built-in
`round` applies. -/
def roundHalfEven (q : ℚ) : ℤ :=
  let n := ⌊q⌋
  let frac := q - n
  if frac < 1 / 2 then n
  else if 1 / 2 < frac then n + 1
  else if n % 2 = 0 then n else n + 1

/-- Python's `round(q, 2)`. -/
def pyRound2 (q : ℚ) : ℚ :=
  (roundHalfEven (q * 100) : ℚ) / 100

/-- The buy rule (lines 310-314): requires `buy_price` present, price at
or below it, USDT balance at least `min_usdt_balance`, and
`min_usdt_balance > 0`; suggested quantity `round(min/price, 2)` with a
`price > 0` guard. -/
def buyAlertFrags (buyPrice : Option ℚ) (price usdt minUsdt : ℚ) : List Frag :=
  match buyPrice with
  | none => []
  | some bp =>
    if price ≤ bp ∧ minUsdt ≤ usdt ∧ 0 < minUsdt then
      [Frag.buy (if 0 < price then pyRound2 (minUsdt / price) else 0)]
    else []

/-- The sell rule (lines 316-322): requires `sell_price` present, price
at or above it, holding at least `min_token_holding`, and
`min_token_holding > 0`; reports the holding value and a profit
percentage that is `(price − buy)/buy × 100` when `buy_price` is present
and positive and `0` otherwise. -/
def sellAlertFrags (sellPrice buyPrice : Option ℚ) (price holding minHold : ℚ) :
    List Frag :=
  match sellPrice with
  | none => []
  | some sp =>
    if sp ≤ price ∧ minHold ≤ holding ∧ 0 < minHold then
      [Frag.sell (holding * price)
        (match buyPrice with
         | some bp => if 0 < bp then (price - bp) / bp * 100 else 0
         | none => 0)]
    else []

/-- One asset's rule battery for one tick (lines 282-322), in source
order: surge/drop, profit target, swing alert, buy, sell; returns the
accumulated `msg_parts` and the asset's new swing zone. -/
def evalAsset (targetFrac surgeP dropP : ℚ) (cfg : AssetCfg)
    (price change3h change24h holding usdt : ℚ) (prev : Zone) :
    List Frag × Zone :=
  let sw := should_send_swing_alert price (price24hAgo price change24h) prev
  (surgeDropFrags change3h surgeP dropP
      ++ profitTargetFrags cfg.entry_price targetFrac price holding
      ++ sw.1
      ++ buyAlertFrags cfg.buy_price price usdt cfg.min_usdt_balance
      ++ sellAlertFrags cfg.sell_price cfg.buy_price price holding
          cfg.min_token_holding,
    sw.2)

/-- The per-tick loop over `TOKENS_TO_MONITOR` (lines 254-329): a failed
fetch or a missing current price skips the asset (`continue`); an
evaluated asset contributes its fragment list and its zone-memory
update, keyed by its own symbol. Missing `percent_change_3h` /
`percent_change_24h` default to 0; balances default to 0 via
`live_balances.get`. -/
def evalTick (targetFrac surgeP dropP : ℚ) (cfgs : String → AssetCfg)
    (fetch : String → Option RawQuote) (balances : String → ℚ) :
    (String → Zone) → List String → List (String × List Frag) × (String → Zone)
  | zones, [] => ([], zones)
  | zones, s :: rest =>
    match fetch s with
    | none => evalTick targetFrac surgeP dropP cfgs fetch balances zones rest
    | some q =>
      match q.price with
      | none => evalTick targetFrac surgeP dropP cfgs fetch balances zones rest
      | some price =>
        let r := evalAsset targetFrac surgeP dropP (cfgs s) price
          (q.percent_change_3h.getD 0) (q.percent_change_24h.getD 0)
          (balances s) (balances "USDT") (zones s)
        let next := evalTick targetFrac surgeP dropP cfgs fetch balances
          (fun t => if t = s then r.2 else zones t) rest
        ((s, r.1) :: next.1, next.2)

/-- A concrete two-asset configuration used to exercise the tick loop:
both assets share an entry price of 100 and no buy/sell trigger. -/
def cfgsW : String → AssetCfg := fun _ => ⟨some 100, none, none, 0, 0⟩

/-- A concrete fetch in which asset "AAA" fails and every other asset
returns a full snapshot (price 106, up 6% in 3h, up 10% in 24h). -/
def fetchW : String → Option RawQuote := fun s =>
  if s = "AAA" then none else some ⟨some 106, some 6, some 10⟩

/-- A concrete balance map: nothing held anywhere. -/
def balW : String → ℚ := fun _ => 0

/-- A concrete zone store: every asset starts in `middle`. -/
def zonesW : String → Zone := fun _ => Zone.middle

/-! ## Claim theorems -/

/-- C5: the trading-window gate allows a tick iff the weekday is in the
allowed set and `startHour ≤ hour < endHour`; the boundary hours
`startHour` and `endHour − 1` pass, `endHour` fails, and an empty
allowed-weekday set always yields false. -/
theorem gate_correct (days : List Nat) (s e w h : Nat) :
    (tradingWindowAllows days s e w h = true ↔ w ∈ days ∧ s ≤ h ∧ h < e)
    ∧ (w ∈ days → s < e →
        tradingWindowAllows days s e w s = true
        ∧ tradingWindowAllows days s e w (e - 1) = true
        ∧ tradingWindowAllows days s e w e = false)
    ∧ tradingWindowAllows [] s e w h = false := by
  refine ⟨?_, ?_, ?_⟩
  · simp [tradingWindowAllows, and_assoc]
  · intro hw hse
    refine ⟨?_, ?_, ?_⟩ <;> simp [tradingWindowAllows, hw] <;> omega
  · simp [tradingWindowAllows]

/-- Witness for C5 at a concrete window: Monday, hours 8-18, tick at
hour 8 of an allowed day. -/
theorem gate_correct_witness :
    tradingWindowAllows [0] 8 18 0 8 = true
    ∧ tradingWindowAllows [0] 8 18 0 17 = true
    ∧ tradingWindowAllows [0] 8 18 0 18 = false := by
  have hg := gate_correct [0] 8 18 0 8
  have hb := hg.2.1 (by decide) (by decide)
  exact ⟨hb.1, hb.2.1, hb.2.2⟩

/-- C10: any configured day name that is not exactly one of "Monday"
through "Saturday" is mapped to ordinal 6 (Sunday), so a day list
containing such a name makes the gate treat Sunday as an allowed
trading day (for any in-window hour). -/
theorem unrecognized_day_allows_sunday (d : String) (days : List String)
    (hd : d ∉ recognizedDayNames) (hmem : d ∈ days) :
    tradingDayOrdinal d = 6
    ∧ 6 ∈ tradingDaysOf days
    ∧ ∀ s e h : Nat, s ≤ h → h < e →
        tradingWindowAllows (tradingDaysOf days) s e 6 h = true := by
  simp only [recognizedDayNames, List.mem_cons, List.mem_singleton, not_or] at hd
  obtain ⟨h1, h2, h3, h4, h5, h6, -⟩ := hd
  have hord : tradingDayOrdinal d = 6 := by
    simp [tradingDayOrdinal, h1, h2, h3, h4, h5, h6]
  have hsix : 6 ∈ tradingDaysOf days := by
    simpa [tradingDaysOf, List.mem_map] using ⟨d, hmem, hord⟩
  exact ⟨hord, hsix, fun s e h hs he => by simp [tradingWindowAllows, hsix, hs, he]⟩

/-- Witness for C10: a config listing "Sunday" (unrecognized by the
mapping, which only knows Monday-Saturday) allows weekday 6. -/
theorem unrecognized_day_allows_sunday_witness :
    tradingDayOrdinal "Sunday" = 6
    ∧ 6 ∈ tradingDaysOf ["Sunday", "Monday"]
    ∧ tradingWindowAllows (tradingDaysOf ["Sunday", "Monday"]) 8 18 6 9 = true := by
  have h := unrecognized_day_allows_sunday "Sunday" ["Sunday", "Monday"]
    (by decide) (by decide)
  exact ⟨h.1, h.2.1, h.2.2 8 18 9 (by decide) (by decide)⟩

/-- C6: when `|1 + change24h/100| ≤ 1e-9` (for example
`change24h = -100`) the 24h-ago price computation performs no division
and falls back to the current price, the reconstructed range is zero
(below the 0.001 floor), and the swing rule is skipped: no fragment is
produced and the zone memory is untouched. -/
theorem degenerate_range_guard (price change24h : ℚ) (prev : Zone)
    (hdeg : |1 + change24h / 100| ≤ 1 / 1000000000) :
    price24hAgo price change24h = price
    ∧ should_send_swing_alert price (price24hAgo price change24h) prev
        = ([], prev) := by
  have hfall : price24hAgo price change24h = price := by
    simp only [price24hAgo]
    rw [if_neg (not_lt.mpr hdeg)]
  refine ⟨hfall, ?_⟩
  rw [hfall]
  simp [should_send_swing_alert]

/-- Witness for C6 at `change24h = -100` (token lost all value). -/
theorem degenerate_range_guard_witness :
    price24hAgo 5 (-100) = 5
    ∧ should_send_swing_alert 5 (price24hAgo 5 (-100)) Zone.middle
        = ([], Zone.middle) :=
  degenerate_range_guard 5 (-100) Zone.middle (by norm_num)

/-- C2 counterexample: with `surgePercent = 5` and `dropPercent = -6`
(overlapping thresholds), `change3h = 5.5` satisfies both the surge
condition (`5.5 ≥ 5`) and the drop condition (`5.5 ≤ -(-6)`), yet the
engine produces only the surge fragment — the drop fragment is not
produced in the same tick, because the two rules are an if/elif chain,
not independent checks. -/
theorem surge_drop_not_independent :
    ((5:ℚ) ≤ 11 / 2 ∧ (11:ℚ) / 2 ≤ -(-6))
    ∧ surgeDropFrags (11 / 2) 5 (-6) = [Frag.surge (11 / 2)]
    ∧ Frag.drop (11 / 2) ∉ surgeDropFrags (11 / 2) 5 (-6) := by
  have hs : (5:ℚ) ≤ 11 / 2 := by norm_num
  refine ⟨⟨hs, by norm_num⟩, ?_, ?_⟩
  · simp [surgeDropFrags, hs]
  · simp [surgeDropFrags, hs]

/-- C2 amended: surge and drop are evaluated as an if/elif chain — when
the surge condition `change3h ≥ surgePercent` holds, only the surge
fragment is produced even if the drop condition also holds; the drop
fragment is produced exactly when the surge condition fails and
`change3h ≤ -dropPercent`; neither fires otherwise. -/
theorem surge_drop_elif_semantics (c s d : ℚ) :
    (s ≤ c → surgeDropFrags c s d = [Frag.surge c])
    ∧ (c < s → c ≤ -d → surgeDropFrags c s d = [Frag.drop |c|])
    ∧ (c < s → -d < c → surgeDropFrags c s d = []) := by
  refine ⟨fun h => by simp [surgeDropFrags, h], fun h1 h2 => ?_, fun h1 h2 => ?_⟩
  · simp [surgeDropFrags, not_le.mpr h1, h2]
  · simp [surgeDropFrags, not_le.mpr h1, not_le.mpr h2]

/-- Witness for the C2 amended theorem at overlapping thresholds. -/
theorem surge_drop_elif_semantics_witness :
    surgeDropFrags (11 / 2) 5 (-6) = [Frag.surge (11 / 2)]
    ∧ surgeDropFrags 3 5 (-6) = [Frag.drop 3]
    ∧ surgeDropFrags 0 5 6 = [] := by
  refine ⟨(surge_drop_elif_semantics (11 / 2) 5 (-6)).1 (by norm_num), ?_, ?_⟩
  · have h := (surge_drop_elif_semantics 3 5 (-6)).2.1 (by norm_num) (by norm_num)
    simpa using h
  · exact (surge_drop_elif_semantics 0 5 6).2.2 (by norm_num) (by norm_num)

/-- C3 counterexample: a sell alert firing with no `buy_price`
configured (`sell_price = 10`, price `10`, holding `1`,
`min_token_holding = 1`, `buy_price` absent) still renders a profit
percentage, defaulted to `0` — the profit figure is not omitted. -/
theorem sell_profit_defaults_to_zero :
    sellAlertFrags (some 10) none 10 1 1 = [Frag.sell 10 0] := by
  norm_num [sellAlertFrags]

/-- C3 amended: whenever the sell rule fires, the rendered fragment
always includes a profit percentage: `(price − buyPrice)/buyPrice × 100`
when `buyPrice` is present and positive, and `0` (a default, not an
omission) when `buyPrice` is absent or non-positive. -/
theorem sell_profit_figure (sp price holding minHold : ℚ)
    (hsp : sp ≤ price) (hh : minHold ≤ holding) (hm : 0 < minHold) :
    (∀ bp : ℚ, 0 < bp →
        sellAlertFrags (some sp) (some bp) price holding minHold
          = [Frag.sell (holding * price) ((price - bp) / bp * 100)])
    ∧ (∀ bp : ℚ, bp ≤ 0 →
        sellAlertFrags (some sp) (some bp) price holding minHold
          = [Frag.sell (holding * price) 0])
    ∧ sellAlertFrags (some sp) none price holding minHold
        = [Frag.sell (holding * price) 0] := by
  refine ⟨fun bp hbp => ?_, fun bp hbp => ?_, ?_⟩ <;>
    simp [sellAlertFrags, hsp, hh, hm, not_lt.mpr, *]

/-- Witness for the C3 amended theorem: a firing sell alert with
`buy_price = 8` reports `(10 − 8)/8 × 100 = 25`%, and with `buy_price`
absent reports the defaulted 0. -/
theorem sell_profit_figure_witness :
    sellAlertFrags (some 10) (some 8) 10 1 1 = [Frag.sell 10 25]
    ∧ sellAlertFrags (some 10) none 10 1 1 = [Frag.sell 10 0] := by
  have h := sell_profit_figure 10 10 1 1 (by norm_num) (by norm_num) (by norm_num)
  constructor
  · have h8 := h.1 8 (by norm_num)
    norm_num at h8
    exact h8
  · have h0 := h.2.2
    norm_num at h0
    exact h0

/-- C8: with `entry_price` present and positive, the profit-target rule
fires iff `price ≥ entryPrice × (1 + targetProfitFraction)` (an
inclusive boundary, and a condition independent of the held quantity);
at `entryPrice = 100`, `targetProfitFraction = 0.04`, price 103.99 does
not fire for any holding, price 104.00 fires, and with no holding the
fired fragment reports zero realized profit. -/
theorem profit_target_rule (e targetFrac price holding : ℚ) (he : 0 < e) :
    (profitTargetFrags (some e) targetFrac price holding ≠ []
       ↔ e * (1 + targetFrac) ≤ price)
    ∧ profitTargetFrags (some 100) (4 / 100) (10399 / 100) holding = []
    ∧ profitTargetFrags (some 100) (4 / 100) 104 0 = [Frag.profitTarget 4 0] := by
  have key : targetFrac * 100 ≤ (price - e) / e * 100
      ↔ e * (1 + targetFrac) ≤ price := by
    rw [div_mul_eq_mul_div, le_div_iff₀ he]
    constructor <;> intro h <;> nlinarith
  refine ⟨?_, ?_, ?_⟩
  · simp only [profitTargetFrags, if_pos he, key]
    split_ifs with hc <;> simp [hc]
  · norm_num [profitTargetFrags]
  · norm_num [profitTargetFrags]

/-- Witness for C8 at `entryPrice = 100`, fraction `0.04`, price 104,
holding 3: the rule fires and the boundary facts hold. -/
theorem profit_target_rule_witness :
    (profitTargetFrags (some 100) (4 / 100) 104 3 ≠ []
       ↔ (100:ℚ) * (1 + 4 / 100) ≤ 104)
    ∧ profitTargetFrags (some 100) (4 / 100) (10399 / 100) 3 = []
    ∧ profitTargetFrags (some 100) (4 / 100) 104 0 = [Frag.profitTarget 4 0] :=
  profit_target_rule 100 (4 / 100) 104 3 (by norm_num)

/-- C9: the buy rule fires iff `buy_price` is present, the price is at
or below it, the USDT funding balance is at least `min_usdt_balance`,
and `min_usdt_balance > 0` (a zero minimum disables the rule); when it
fires with a positive price the suggested quantity is
`round(min_usdt_balance / price, 2)`. -/
theorem buy_rule (bp price usdt minUsdt : ℚ) :
    (buyAlertFrags (some bp) price usdt minUsdt ≠ []
       ↔ price ≤ bp ∧ minUsdt ≤ usdt ∧ 0 < minUsdt)
    ∧ buyAlertFrags (some bp) price usdt 0 = []
    ∧ buyAlertFrags none price usdt minUsdt = []
    ∧ (price ≤ bp → minUsdt ≤ usdt → 0 < minUsdt → 0 < price →
        buyAlertFrags (some bp) price usdt minUsdt
          = [Frag.buy (pyRound2 (minUsdt / price))]) := by
  refine ⟨?_, ?_, rfl, fun h1 h2 h3 h4 => ?_⟩
  · simp only [buyAlertFrags]
    split_ifs with hc <;> simp [hc]
  · simp [buyAlertFrags]
  · simp [buyAlertFrags, h1, h2, h3, h4]

/-- Witness for C9 on the spec's funding-gate scenario
(`buy_price = 0.20`, `min_usdt_balance = 50`): a 49.99 USDT balance
does not fire, a 50.00 balance fires with suggested quantity
`round(50 / 0.20, 2) = 250`. -/
theorem buy_rule_witness :
    buyAlertFrags (some (1 / 5)) (1 / 5) (4999 / 100) 50 = []
    ∧ buyAlertFrags (some (1 / 5)) (1 / 5) 50 50 = [Frag.buy 250] := by
  constructor
  · have h := (buy_rule (1 / 5) (1 / 5) (4999 / 100) 50).1
    have hnc : ¬((1:ℚ) / 5 ≤ 1 / 5 ∧ (50:ℚ) ≤ 4999 / 100 ∧ (0:ℚ) < 50) := by
      norm_num
    exact not_not.mp fun hne => hnc (h.mp hne)
  · have h := (buy_rule (1 / 5) (1 / 5) 50 50).2.2.2
      (by norm_num) (by norm_num) (by norm_num) (by norm_num)
    rw [h]
    norm_num [pyRound2, roundHalfEven]

/-- Helper: while the price stays at or above the top threshold, an
asset already in the `top` zone fires nothing and stays in `top`. -/
theorem zoneRun_stays_top (topThr botThr : ℚ) (ps : List ℚ)
    (h : ∀ p ∈ ps, topThr ≤ p) :
    zoneRun topThr botThr Zone.top ps = ps.map fun _ => ([] : List Frag) := by
  induction ps with
  | nil => rfl
  | cons p rest ih =>
    have hp : topThr ≤ p := h p (List.mem_cons_self _ _)
    have hrest : ∀ q ∈ rest, topThr ≤ q := fun q hq => h q (List.mem_cons_of_mem _ hq)
    simp [zoneRun, zoneStep, hp, ih hrest]

/-- C1: with the bottom threshold below the top threshold (as the 90%
and 10% marks of a positive range always are), the "near top" fragment
fires exactly when the price is at or above the top threshold and the
stored zone is not `top`, and symmetrically for "near bottom"; a
sequence staying at or above the top threshold fires once, on its first
tick, and never again; and a Top, Middle, Top sequence fires on both
entries into Top and not on the middle tick. -/
theorem hysteresis_fire_norepeat_rearm (topThr botThr : ℚ)
    (hlt : botThr < topThr) :
    (∀ (p : ℚ) (prev : Zone),
        ((zoneStep p topThr botThr prev).1 = [Frag.nearTop p]
           ↔ topThr ≤ p ∧ prev ≠ Zone.top)
        ∧ ((zoneStep p topThr botThr prev).1 = [Frag.nearBottom p]
           ↔ p ≤ botThr ∧ prev ≠ Zone.bottom))
    ∧ (∀ (p₀ : ℚ) (ps : List ℚ), (∀ p ∈ p₀ :: ps, topThr ≤ p) →
        zoneRun topThr botThr Zone.middle (p₀ :: ps)
          = [Frag.nearTop p₀] :: ps.map fun _ => ([] : List Frag))
    ∧ (∀ p1 p2 p3 : ℚ, topThr ≤ p1 → botThr < p2 → p2 < topThr → topThr ≤ p3 →
        zoneRun topThr botThr Zone.middle [p1, p2, p3]
          = [[Frag.nearTop p1], [], [Frag.nearTop p3]]) := by
  refine ⟨fun p prev => ?_, fun p₀ ps hall => ?_, fun p1 p2 p3 h1 h2 h3 h4 => ?_⟩
  · unfold zoneStep
    split_ifs with htop hprev hbot hprev2
    · have hnb : ¬ p ≤ botThr := by linarith
      exact ⟨by simp [htop, hprev], by simp [hnb]⟩
    · exact ⟨by simp [hprev], by simp [show ¬ p ≤ botThr by linarith]⟩
    · exact ⟨by simp [htop], by simp [hbot, hprev2]⟩
    · exact ⟨by simp [htop], by simp [hprev2]⟩
    · exact ⟨by simp [htop], by simp [hbot]⟩
  · have hp0 : topThr ≤ p₀ := hall p₀ (List.mem_cons_self _ _)
    have hrest : ∀ q ∈ ps, topThr ≤ q := fun q hq => hall q (List.mem_cons_of_mem _ hq)
    simp [zoneRun, zoneStep, hp0, zoneRun_stays_top topThr botThr ps hrest]
  · have hn2 : ¬ topThr ≤ p2 := not_le.mpr h3
    have hn2b : ¬ p2 ≤ botThr := not_le.mpr h2
    simp [zoneRun, zoneStep, h1, h4, hn2, hn2b]

/-- Witness for C1 with thresholds 95 and 55: a three-tick Top, Middle,
Top price run fires on ticks 1 and 3 only; a run staying in Top fires
only on its first tick; and the fire condition holds at a concrete
entry into Top. -/
theorem hysteresis_fire_norepeat_rearm_witness :
    zoneRun 95 55 Zone.middle [100, 70, 100]
      = [[Frag.nearTop 100], [], [Frag.nearTop 100]]
    ∧ zoneRun 95 55 Zone.middle [96, 97, 98] = [[Frag.nearTop 96], [], []]
    ∧ ((zoneStep 100 95 55 Zone.middle).1 = [Frag.nearTop 100]
        ↔ (95:ℚ) ≤ 100 ∧ Zone.middle ≠ Zone.top) := by
  have h := hysteresis_fire_norepeat_rearm 95 55 (by norm_num)
  refine ⟨h.2.2 100 70 100 (by norm_num) (by norm_num) (by norm_num) (by norm_num),
    ?_, (h.1 100 Zone.middle).1⟩
  have hb := h.2.1 96 [97, 98] (by decide)
  simpa using hb

/-- C4 counterexample: a single `should_send_swing_alert` evaluation
moves the stored zone of an asset from `top` directly to `bottom`
(price 1 against an approximated 24h-ago price of 100 puts the price at
or below the bottom threshold 10.9), firing "near bottom" without any
intervening `middle` tick. -/
theorem zone_top_to_bottom_direct :
    (should_send_swing_alert 1 100 Zone.top).1 = [Frag.nearBottom 1]
    ∧ (should_send_swing_alert 1 100 Zone.top).2 = Zone.bottom := by
  constructor <;> norm_num [should_send_swing_alert, zoneStep, max_def, min_def] <;>
    decide

/-- C4 amended: whenever the reconstructed range is above the 0.001
floor, the zone stored after an evaluation is determined by the price's
position relative to the two thresholds alone — `top` at or above the
top threshold, `bottom` at or below the bottom threshold, else
`middle` — regardless of the previous zone; in particular a direct
Top to Bottom (or Bottom to Top) transition occurs without passing
through Middle. -/
theorem zone_determined_by_price (price p24 : ℚ) (prev : Zone)
    (h : 1 / 1000 < max price p24 - min price p24) :
    (should_send_swing_alert price p24 prev).2 =
      (if min price p24 + 9 / 10 * (max price p24 - min price p24) ≤ price
       then Zone.top
       else if price ≤ min price p24 + 1 / 10 * (max price p24 - min price p24)
       then Zone.bottom
       else Zone.middle) := by
  simp only [should_send_swing_alert, if_neg (not_le.mpr h)]
  unfold zoneStep
  split_ifs <;> simp_all

/-- Witness for the C4 amended theorem at price 1 against an
approximated 24h-ago price of 100, starting from the `top` zone. -/
theorem zone_determined_by_price_witness :
    (should_send_swing_alert 1 100 Zone.top).2 =
      (if min (1:ℚ) 100 + 9 / 10 * (max (1:ℚ) 100 - min (1:ℚ) 100) ≤ 1
       then Zone.top
       else if (1:ℚ) ≤ min (1:ℚ) 100 + 1 / 10 * (max (1:ℚ) 100 - min (1:ℚ) 100)
       then Zone.bottom
       else Zone.middle) :=
  zone_determined_by_price 1 100 Zone.top (by norm_num [max_def, min_def])

/-- Helper: a tick skips an asset whose fetch failed or whose snapshot
carries no usable current price, continuing with the remaining assets
and the zone store unchanged. -/
theorem evalTick_skips_failed (tf sp dp : ℚ) (cfgs : String → AssetCfg)
    (fetch : String → Option RawQuote) (balances : String → ℚ)
    (zones : String → Zone) (A : String) (rest : List String)
    (hA : fetch A = none ∨ ∃ q, fetch A = some q ∧ q.price = none) :
    evalTick tf sp dp cfgs fetch balances zones (A :: rest)
      = evalTick tf sp dp cfgs fetch balances zones rest := by
  rcases hA with h | ⟨q, hq, hp⟩
  · simp [evalTick, h]
  · simp [evalTick, hq, hp]

/-- Helper: an asset whose fetch fails for the tick never contributes an
output entry and its stored zone survives the whole tick unchanged,
whatever the asset list. -/
theorem evalTick_failed_asset_isolated (tf sp dp : ℚ) (cfgs : String → AssetCfg)
    (fetch : String → Option RawQuote) (balances : String → ℚ) (A : String)
    (hA : fetch A = none ∨ ∃ q, fetch A = some q ∧ q.price = none) :
    ∀ (syms : List String) (zones : String → Zone),
      (∀ entry ∈ (evalTick tf sp dp cfgs fetch balances zones syms).1,
          entry.1 ≠ A)
      ∧ (evalTick tf sp dp cfgs fetch balances zones syms).2 A = zones A := by
  intro syms
  induction syms with
  | nil => exact fun zones => ⟨by simp [evalTick], rfl⟩
  | cons s rest ih =>
    intro zones
    cases hfs : fetch s with
    | none => simpa [evalTick, hfs] using ih zones
    | some q =>
      cases hqp : q.price with
      | none => simpa [evalTick, hfs, hqp] using ih zones
      | some p =>
        have hsA : s ≠ A := by
          rintro rfl
          rcases hA with h | ⟨q', hq', hp'⟩
          · simp [h] at hfs
          · rw [hq'] at hfs
            obtain rfl : q' = q := Option.some.inj hfs
            simp [hp'] at hqp
        obtain ⟨ih1, ih2⟩ := ih
          (fun t => if t = s
            then (evalAsset tf sp dp (cfgs s) p (q.percent_change_3h.getD 0)
              (q.percent_change_24h.getD 0) (balances s) (balances "USDT")
              (zones s)).2
            else zones t)
        constructor
        · intro entry hmem
          simp only [evalTick, hfs, hqp, List.mem_cons] at hmem
          rcases hmem with rfl | hmem
          · exact hsA
          · exact ih1 entry hmem
        · simp only [evalTick, hfs, hqp]
          rw [ih2]
          have hAs : A ≠ s := Ne.symm hsA
          simp [hAs]

/-- C7: if the price fetch fails for an asset, or the fetched snapshot
has no usable current price, evaluation for that asset alone is aborted
for the tick: the tick over `A :: rest` equals the tick over `rest`
(so every other tracked asset is still evaluated exactly as it would be
without A, and may still fire), no output entry is ever produced for A,
and A's stored zone is not mutated. -/
theorem failed_fetch_isolated (tf sp dp : ℚ) (cfgs : String → AssetCfg)
    (fetch : String → Option RawQuote) (balances : String → ℚ)
    (zones : String → Zone) (A : String) (syms : List String)
    (hA : fetch A = none ∨ ∃ q, fetch A = some q ∧ q.price = none) :
    (∀ rest : List String,
        evalTick tf sp dp cfgs fetch balances zones (A :: rest)
          = evalTick tf sp dp cfgs fetch balances zones rest)
    ∧ (∀ entry ∈ (evalTick tf sp dp cfgs fetch balances zones syms).1,
        entry.1 ≠ A)
    ∧ (evalTick tf sp dp cfgs fetch balances zones syms).2 A = zones A := by
  obtain ⟨h1, h2⟩ :=
    evalTick_failed_asset_isolated tf sp dp cfgs fetch balances A hA syms zones
  exact ⟨fun rest =>
    evalTick_skips_failed tf sp dp cfgs fetch balances zones A rest hA, h1, h2⟩

/-- Witness for C7: a concrete two-asset tick where the fetch for
"AAA" fails; the tick reduces to the one-asset tick over "BBB" and
"AAA"'s zone is untouched. -/
theorem failed_fetch_isolated_witness :
    evalTick (4 / 100) 5 5 cfgsW fetchW balW zonesW ["AAA", "BBB"]
      = evalTick (4 / 100) 5 5 cfgsW fetchW balW zonesW ["BBB"]
    ∧ (evalTick (4 / 100) 5 5 cfgsW fetchW balW zonesW ["AAA", "BBB"]).2 "AAA"
      = zonesW "AAA" := by
  have h := failed_fetch_isolated (4 / 100) 5 5 cfgsW fetchW balW zonesW "AAA"
    ["AAA", "BBB"] (Or.inl (by simp [fetchW]))
  exact ⟨h.1 ["BBB"], h.2.2⟩
